import Mathlib

/-!
Formal model of the VictoryQuant strategy-simulation core.

The Python source is embedded shallowly over exact rationals:
prices, cash and fees are `ℚ` (Python float arithmetic is modelled
exactly; the claims under study are about exact branch conditions
and accounting identities, not float rounding), share quantities are
`ℤ` (Python ints), Python `int(x)` is truncation toward zero and
Python `//` is floor division (`Int.fdiv`).  Python dicts keyed by
strings become association lists updated in insertion order.  A
Python statement that can raise (the `total_cost / quantity` division
with `quantity == 0` in `_execute_buy`) makes the embedded function
return `none`; all other paths return `some` of the updated state.
-/

namespace VictoryQuant

/-- Python `int(x)` on a (rational) number: truncation toward zero. -/
def ratTrunc (q : ℚ) : ℤ := Int.tdiv q.num q.den

/-- Lookup in an association list (first binding wins), i.e. `d[k]`. -/
def assocFind {α : Type} (l : List (String × α)) (k : String) : Option α :=
  match l with
  | [] => none
  | (k2, v) :: rest => if k2 = k then some v else assocFind rest k

/-- Update of an association list: replace the first binding of `k`,
or append a new binding at the end (Python dicts keep insertion order). -/
def assocSet {α : Type} (l : List (String × α)) (k : String) (v : α) : List (String × α) :=
  match l with
  | [] => [(k, v)]
  | (k2, v2) :: rest => if k2 = k then (k2, v) :: rest else (k2, v2) :: assocSet rest k v

theorem assocFind_assocSet {α : Type} (l : List (String × α)) (k k2 : String) (v : α) :
    assocFind (assocSet l k v) k2 = if k2 = k then some v else assocFind l k2 := by
  induction l with
  | nil =>
    by_cases h : k2 = k
    · subst h; simp [assocFind, assocSet]
    · simp [assocFind, assocSet, h, Ne.symm h]
  | cons p rest ih =>
    obtain ⟨k3, v3⟩ := p
    by_cases h3 : k3 = k
    · subst h3
      by_cases h : k2 = k3
      · subst h; simp [assocFind, assocSet]
      · simp [assocFind, assocSet, h, Ne.symm h]
    · by_cases h : k2 = k3
      · subst h
        simp [assocFind, assocSet, h3, Ne.symm h3]
      · simp [assocFind, assocSet, h3, Ne.symm h, h, ih]

/-- Signal direction, from `strategy/base/signal.py` (`SignalType`). -/
inductive SignalType where
  | BUY
  | SELL
  | HOLD
  | CLOSE_LONG
  | CLOSE_SHORT
deriving DecidableEq, Repr

/-- Strategy signal, from `strategy/base/signal.py` (`Signal`).
Timestamps are modelled at the granularity the engine actually
compares them at (`signal.timestamp.date()`), as integer dates. -/
structure Signal where
  symbol : String
  signal_type : SignalType
  price : ℚ
  timestamp : ℤ
  strength : ℚ
  quantity : Option ℤ
deriving DecidableEq, Repr

/-- Per-symbol ledger entry of the backtest engine
(`self.positions[symbol]` in `backtest_engine.py`). -/
structure BPos where
  quantity : ℤ
  avg_cost : ℚ
  total_cost : ℚ
deriving DecidableEq, Repr

/-- Trade direction recorded in a trade dict. -/
inductive Direction where
  | BUY
  | SELL
deriving DecidableEq, Repr

/-- Trade record appended by `_execute_buy` / `_execute_sell`.
Buy records carry no `profit` key, modelled as `none`.  For sells the
`commission` field is `commission + stamp_duty`, as in the source. -/
structure BTrade where
  date : ℤ
  symbol : String
  direction : Direction
  price : ℚ
  quantity : ℤ
  amount : ℚ
  commission : ℚ
  profit : Option ℚ
  cash_after : ℚ
deriving DecidableEq, Repr

/-- Daily snapshot appended by `_update_daily_value`. -/
structure DailyValue where
  date : ℤ
  total_value : ℚ
  cash : ℚ
  position_value : ℚ
deriving DecidableEq, Repr

/-- Engine parameters (`BacktestEngine.__init__`). -/
structure BParams where
  initial_capital : ℚ
  commission_rate : ℚ
  stamp_duty_rate : ℚ
  slippage : ℚ
deriving DecidableEq, Repr

/-- Mutable state of a `BacktestEngine` run. -/
structure EngineState where
  cash : ℚ
  positions : List (String × BPos)
  trades : List BTrade
  daily_values : List DailyValue
deriving DecidableEq, Repr

/-- State after `reset()`: initial capital, no positions, no trades. -/
def initState (P : BParams) : EngineState :=
  { cash := P.initial_capital, positions := [], trades := [], daily_values := [] }

/-- Lookup of `self.positions[symbol]`. -/
def findPos (ps : List (String × BPos)) (sym : String) : Option BPos :=
  assocFind ps sym

/-- Affordable quantity of `_execute_buy`: `int(cash / actual_price)`
rounded down to the 100-share lot (Python `//` is floor division). -/
def affordableQuantity (cash actual_price : ℚ) : ℤ :=
  (Int.fdiv (ratTrunc (cash / actual_price)) 100) * 100

/-- Optional clamp of the affordable quantity to `signal.quantity`,
re-rounded down to the lot (`_execute_buy`, the `if signal.quantity and
signal.quantity > 0` block). -/
def clampQuantity (q : ℤ) (sigq : Option ℤ) : ℤ :=
  match sigq with
  | some sq => if 0 < sq then (Int.fdiv (min q sq) 100) * 100 else q
  | none => q

/-- Model of `BacktestEngine._execute_buy`.  Returns `none` exactly when
the source raises `ZeroDivisionError` (computing `avg_cost` with a
resulting position quantity of zero, possible because the sub-lot check
happens before the clamp to `signal.quantity`). -/
def executeBuy (P : BParams) (s : EngineState) (sig : Signal) (price : ℚ) :
    Option EngineState :=
  let actual_price : ℚ := price * (1 + P.slippage)
  if affordableQuantity s.cash actual_price < 100 then some s
  else
    let quantity : ℤ := clampQuantity (affordableQuantity s.cash actual_price) sig.quantity
    let amount : ℚ := (quantity : ℚ) * actual_price
    let commission : ℚ := max (amount * P.commission_rate) 5
    let total_cost : ℚ := amount + commission
    if s.cash < total_cost then some s
    else
      let pos : BPos := (findPos s.positions sig.symbol).getD ⟨0, 0, 0⟩
      let newTotal : ℚ := pos.total_cost + amount
      let newQty : ℤ := pos.quantity + quantity
      if newQty = 0 then none
      else
        some { cash := s.cash - total_cost
             , positions := assocSet s.positions sig.symbol
                 ⟨newQty, newTotal / (newQty : ℚ), newTotal⟩
             , trades := s.trades ++
                 [⟨sig.timestamp, sig.symbol, Direction.BUY, actual_price, quantity,
                   amount, commission, none, s.cash - total_cost⟩]
             , daily_values := s.daily_values }

/-- Quantity actually sold by `_execute_sell`: the whole holding, or the
requested quantity clamped to the holding and rounded down to the
100-share lot. -/
def sellQuantity (pos : BPos) (sig : Signal) : ℤ :=
  match sig.quantity with
  | some sq => if 0 < sq then (Int.fdiv (min pos.quantity sq) 100) * 100
               else pos.quantity
  | none => pos.quantity

/-- Model of `BacktestEngine._execute_sell` (total: no division occurs). -/
def executeSell (P : BParams) (s : EngineState) (sig : Signal) (price : ℚ) :
    EngineState :=
  match findPos s.positions sig.symbol with
  | none => s
  | some pos =>
    if pos.quantity ≤ 0 then s
    else
      let quantity : ℤ := sellQuantity pos sig
      if quantity ≤ 0 then s
      else
        let actual_price : ℚ := price * (1 - P.slippage)
        let amount : ℚ := (quantity : ℚ) * actual_price
        let commission : ℚ := max (amount * P.commission_rate) 5
        let stamp_duty : ℚ := amount * P.stamp_duty_rate
        let total_revenue : ℚ := amount - commission - stamp_duty
        let profit : ℚ := amount - (quantity : ℚ) * pos.avg_cost
        let newQty : ℤ := pos.quantity - quantity
        let newPos : BPos :=
          if newQty ≤ 0 then ⟨0, 0, 0⟩
          else ⟨newQty, pos.avg_cost, (newQty : ℚ) * pos.avg_cost⟩
        { cash := s.cash + total_revenue
        , positions := assocSet s.positions sig.symbol newPos
        , trades := s.trades ++
            [⟨sig.timestamp, sig.symbol, Direction.SELL, actual_price, quantity,
              amount, commission + stamp_duty, some profit, s.cash + total_revenue⟩]
        , daily_values := s.daily_values }

/-- Engine parameters of the worked example in the specification:
capital 10,000, commission 0.0003, stamp duty 0.001, slippage 0.001. -/
def exParams : BParams :=
  { initial_capital := 10000, commission_rate := 3 / 10000
  , stamp_duty_rate := 1 / 1000, slippage := 1 / 1000 }

/-- A plain BUY signal with no requested quantity. -/
def exBuySignal : Signal :=
  { symbol := "000001", signal_type := SignalType.BUY, price := 10
  , timestamp := 0, strength := 1, quantity := none }

/-- C2: with capital 10,000, commission rate 0.0003 and slippage 0.001, a
single BUY with no requested quantity at close 10.0 buys 900 shares at
effective price 10.01, amount 9009, commission 5, leaving cash 986. -/
theorem C2_worked_buy_example :
    executeBuy exParams (initState exParams) exBuySignal 10 =
      some { cash := 986
           , positions := [("000001", ⟨900, 1001 / 100, 9009⟩)]
           , trades := [⟨0, "000001", Direction.BUY, 1001 / 100, 900, 9009, 5, none, 986⟩]
           , daily_values := [] } := by
  with_unfolding_all rfl

/-- A BUY signal requesting only 50 shares, i.e. less than one lot. -/
def exSmallBuySignal : Signal :=
  { symbol := "000001", signal_type := SignalType.BUY, price := 10
  , timestamp := 0, strength := 1, quantity := some 50 }

/-- Engine state holding an existing 100-share position bought at 10. -/
def exStateHeld : EngineState :=
  { cash := 5000, positions := [("000001", ⟨100, 10, 1000⟩)]
  , trades := [], daily_values := [] }

/-- C3 (code bug): a BUY whose requested quantity re-rounds to zero
shares after the clamp is not a no-op.  The affordable quantity (400)
passes the one-lot check, the clamp to the requested 50 shares re-rounds
to 0, and the source never re-checks the lot minimum: with no existing
position it deducts cash and then raises `ZeroDivisionError` computing
`avg_cost` (modelled by `none`), and with an existing position it
deducts the minimum commission of 5 and records a zero-share trade.
The specification requires cash, positions and trades to be unchanged. -/
theorem C3_sublot_clamp_not_noop :
    executeBuy exParams (initState exParams) exSmallBuySignal 10 = none ∧
    executeBuy exParams exStateHeld exSmallBuySignal 10 =
      some { cash := 4995
           , positions := [("000001", ⟨100, 10, 1000⟩)]
           , trades := [⟨0, "000001", Direction.BUY, 1001 / 100, 0, 0, 5, none, 4995⟩]
           , daily_values := [] } :=
  ⟨by with_unfolding_all rfl, by with_unfolding_all rfl⟩

/-- Ledger invariant for one position (specification sections 3 and 8):
`total_cost = quantity * avg_cost` (exact rational arithmetic, hence
within any tolerance), a nonnegative quantity, and a zero quantity
forcing zero average cost and zero total cost. -/
def PosInv (p : BPos) : Prop :=
  p.total_cost = (p.quantity : ℚ) * p.avg_cost ∧ 0 ≤ p.quantity ∧
    (p.quantity = 0 → p.avg_cost = 0 ∧ p.total_cost = 0)

/-- Ledger invariant over every position of an engine state. -/
def StateInv (s : EngineState) : Prop :=
  ∀ sym pos, findPos s.positions sym = some pos → PosInv pos

theorem stateInv_init (P : BParams) : StateInv (initState P) := by
  intro sym pos h
  simp [initState, findPos, assocFind] at h

theorem fdiv_nonneg_of_nonneg {a b : ℤ} (ha : 0 ≤ a) (hb : 0 ≤ b) :
    0 ≤ Int.fdiv a b := by
  rw [Int.fdiv_eq_ediv a hb]
  exact Int.ediv_nonneg ha hb

theorem clampQuantity_nonneg (q : ℤ) (sigq : Option ℤ) (h : 100 ≤ q) :
    0 ≤ clampQuantity q sigq := by
  match sigq with
  | none => simpa [clampQuantity] using le_trans (by norm_num) h
  | some sq =>
    by_cases h2 : 0 < sq
    · have hmin : 0 ≤ min q sq := le_min (le_trans (by norm_num) h) (le_of_lt h2)
      have h3 := fdiv_nonneg_of_nonneg hmin (by norm_num : (0:ℤ) ≤ 100)
      have h4 : 0 ≤ (Int.fdiv (min q sq) 100) * 100 :=
        mul_nonneg h3 (by norm_num)
      simpa [clampQuantity, h2] using h4
    · simpa [clampQuantity, h2] using le_trans (by norm_num) h

theorem executeBuy_preserves_inv {P : BParams} {s s2 : EngineState} {sig : Signal}
    {price : ℚ} (hrun : executeBuy P s sig price = some s2) (hinv : StateInv s) :
    StateInv s2 := by
  simp only [executeBuy] at hrun
  split at hrun
  · simp only [Option.some.injEq] at hrun; subst hrun; exact hinv
  · rename_i hafford
    split at hrun
    · simp only [Option.some.injEq] at hrun; subst hrun; exact hinv
    · split at hrun
      · exact absurd hrun (by simp)
      · rename_i hqty
        simp only [Option.some.injEq] at hrun
        subst hrun
        intro sym pos hfind
        simp only [findPos, assocFind_assocSet] at hfind
        by_cases hsym : sym = sig.symbol
        · rw [if_pos hsym] at hfind
          simp only [Option.some.injEq] at hfind
          subst hfind
          have h100 : 100 ≤ affordableQuantity s.cash (price * (1 + P.slippage)) := by
            omega
          have hq0 : 0 ≤ clampQuantity
              (affordableQuantity s.cash (price * (1 + P.slippage))) sig.quantity :=
            clampQuantity_nonneg _ _ h100
          have hold : 0 ≤ ((findPos s.positions sig.symbol).getD ⟨0, 0, 0⟩).quantity := by
            cases hp : findPos s.positions sig.symbol with
            | none => simp
            | some p => simpa using (hinv sig.symbol p hp).2.1
          refine ⟨?_, ?_, ?_⟩
          · have : ((((findPos s.positions sig.symbol).getD ⟨0, 0, 0⟩).quantity +
                clampQuantity (affordableQuantity s.cash (price * (1 + P.slippage)))
                  sig.quantity : ℤ) : ℚ) ≠ 0 := by
              exact_mod_cast hqty
            exact (mul_div_cancel₀ _ this).symm
          · simpa using add_nonneg hold hq0
          · intro hzero; exact absurd hzero hqty
        · rw [if_neg hsym] at hfind
          exact hinv sym pos hfind

theorem executeSell_preserves_inv {P : BParams} {s : EngineState} {sig : Signal}
    {price : ℚ} (hinv : StateInv s) : StateInv (executeSell P s sig price) := by
  unfold executeSell
  cases hp : findPos s.positions sig.symbol with
  | none => exact hinv
  | some p =>
    by_cases h1 : p.quantity ≤ 0
    · simpa [h1] using hinv
    · by_cases h2 : sellQuantity p sig ≤ 0
      · simpa [h1, h2] using hinv
      · simp only [if_neg h1, if_neg h2]
        intro sym pos hfind
        simp only [findPos, assocFind_assocSet] at hfind
        by_cases hsym : sym = sig.symbol
        · rw [if_pos hsym] at hfind
          simp only [Option.some.injEq] at hfind
          by_cases h3 : p.quantity - sellQuantity p sig ≤ 0
          · rw [if_pos h3] at hfind
            subst hfind
            exact ⟨by simp, le_refl 0, fun _ => ⟨rfl, rfl⟩⟩
          · rw [if_neg h3] at hfind
            subst hfind
            refine ⟨rfl, ?_, ?_⟩
            · show (0:ℤ) ≤ p.quantity - sellQuantity p sig
              omega
            · intro hz
              have hz2 : p.quantity - sellQuantity p sig = 0 := hz
              exact absurd hz2 (by omega)
        · rw [if_neg hsym] at hfind
          exact hinv sym pos hfind

/-- One executed signal: the engine calls `_execute_buy` or `_execute_sell`. -/
inductive ExecEvent where
  | buy (sig : Signal) (price : ℚ)
  | sell (sig : Signal) (price : ℚ)
deriving DecidableEq, Repr

/-- One execution step; a buy may abort the run (`ZeroDivisionError`). -/
def execStep (P : BParams) (s : EngineState) : ExecEvent → Option EngineState
  | .buy sig price => executeBuy P s sig price
  | .sell sig price => some (executeSell P s sig price)

/-- Fold of a sequence of executions, propagating an aborted run. -/
def runEvents (P : BParams) (s : EngineState) : List ExecEvent → Option EngineState
  | [] => some s
  | e :: es =>
    match execStep P s e with
    | none => none
    | some s2 => runEvents P s2 es

theorem runEvents_preserves_inv (P : BParams) (evs : List ExecEvent) :
    ∀ s s2 : EngineState, runEvents P s evs = some s2 → StateInv s → StateInv s2 := by
  induction evs with
  | nil =>
    intro s s2 h hi
    simp only [runEvents, Option.some.injEq] at h
    subst h; exact hi
  | cons e es ih =>
    intro s s2 h hi
    simp only [runEvents] at h
    cases hstep : execStep P s e with
    | none => rw [hstep] at h; exact absurd h (by simp)
    | some s1 =>
      rw [hstep] at h
      refine ih s1 s2 h ?_
      cases e with
      | buy sig price => exact executeBuy_preserves_inv hstep hi
      | sell sig price =>
        simp only [execStep, Option.some.injEq] at hstep
        subst hstep
        exact executeSell_preserves_inv hi

/-- C1: after every sequence of buy and sell executions performed by the
engine from its reset state, every position satisfies
`total_cost = quantity * avg_cost` (exactly, hence within tolerance),
`quantity ≥ 0`, and `quantity = 0` implies `avg_cost = 0` and
`total_cost = 0`.  Intermediate states are covered as the final states
of the corresponding prefixes of the sequence. -/
theorem C1_ledger_invariant (P : BParams) (evs : List ExecEvent) (s : EngineState)
    (hrun : runEvents P (initState P) evs = some s) : StateInv s :=
  runEvents_preserves_inv P evs (initState P) s hrun (stateInv_init P)

/-- Engine state after the worked single-buy example. -/
def exStateAfterBuy : EngineState :=
  { cash := 986
  , positions := [("000001", ⟨900, 1001 / 100, 9009⟩)]
  , trades := [⟨0, "000001", Direction.BUY, 1001 / 100, 900, 9009, 5, none, 986⟩]
  , daily_values := [] }

/-- Witness for C1 at a concrete one-buy run. -/
theorem C1_ledger_invariant_witness :
    runEvents exParams (initState exParams) [ExecEvent.buy exBuySignal 10] =
      some exStateAfterBuy ∧ StateInv exStateAfterBuy :=
  ⟨by with_unfolding_all rfl,
   C1_ledger_invariant exParams [ExecEvent.buy exBuySignal 10] exStateAfterBuy
     (by with_unfolding_all rfl)⟩

/-- Per-symbol entry of `PositionManager.positions`
(`risk/position_manager.py`). -/
structure PMPos where
  quantity : ℤ
  avg_cost : ℚ
  total_cost : ℚ
  current_price : ℚ
deriving DecidableEq, Repr

/-- State of a `PositionManager` (`risk/position_manager.py`). -/
structure PositionManager where
  initial_capital : ℚ
  cash : ℚ
  positions : List (String × PMPos)
deriving DecidableEq, Repr

/-- Model of `PositionManager.update_position`.  A missing symbol is
first given a zero entry whose `current_price` is the supplied price;
an oversized sell (`quantity > held`) skips the sell block entirely;
`current_price` is always set at the end. -/
def PositionManager.updatePosition (m : PositionManager) (symbol : String)
    (quantity : ℤ) (price : ℚ) (is_buy : Bool) : PositionManager :=
  let pos : PMPos := (assocFind m.positions symbol).getD ⟨0, 0, 0, price⟩
  if is_buy then
    let amount : ℚ := (quantity : ℚ) * price
    let newTotal : ℚ := pos.total_cost + amount
    let newQty : ℤ := pos.quantity + quantity
    let newAvg : ℚ := if 0 < newQty then newTotal / (newQty : ℚ) else 0
    { m with cash := m.cash - amount
           , positions := assocSet m.positions symbol ⟨newQty, newAvg, newTotal, price⟩ }
  else
    if quantity ≤ pos.quantity then
      let newQty : ℤ := pos.quantity - quantity
      let revenue : ℚ := (quantity : ℚ) * price
      let pos2 : PMPos :=
        if newQty ≤ 0 then ⟨0, 0, 0, price⟩
        else ⟨newQty, pos.avg_cost, pos.total_cost, price⟩
      { m with cash := m.cash + revenue
             , positions := assocSet m.positions symbol pos2 }
    else
      let pos2 : PMPos := ⟨pos.quantity, pos.avg_cost, pos.total_cost, price⟩
      { m with positions := assocSet m.positions symbol pos2 }

/-- Model of `PositionManager.clear_position`: forced liquidation at the
supplied price, with no commission, stamp duty or slippage. -/
def PositionManager.clearPosition (m : PositionManager) (symbol : String)
    (price : ℚ) : ℚ × PositionManager :=
  match assocFind m.positions symbol with
  | none => (0, m)
  | some pos =>
    if pos.quantity ≤ 0 then (0, m)
    else
      let revenue : ℚ := (pos.quantity : ℚ) * price
      (revenue, { m with cash := m.cash + revenue
                       , positions := assocSet m.positions symbol ⟨0, 0, 0, price⟩ })

/-- C9: for a symbol with an existing position, a sell through
`update_position` whose quantity strictly exceeds the held quantity is
silently dropped: cash and the position's quantity, avg_cost and
total_cost are unchanged, and only `current_price` is set to the
supplied price. -/
theorem C9_oversized_sell_dropped (m : PositionManager) (symbol : String)
    (q : ℤ) (price : ℚ) (pos : PMPos)
    (hpos : assocFind m.positions symbol = some pos)
    (hover : pos.quantity < q) :
    PositionManager.updatePosition m symbol q price false =
      { m with positions :=
          assocSet m.positions symbol { pos with current_price := price } } := by
  unfold PositionManager.updatePosition
  rw [hpos]
  simp only [Option.getD_some, Bool.false_eq_true, if_false, if_neg (not_le.mpr hover)]

/-- Concrete manager used by the witnesses below: 100 shares of
"000001" bought at 10. -/
def exManager : PositionManager :=
  { initial_capital := 100000, cash := 99000
  , positions := [("000001", ⟨100, 10, 1000, 10⟩)] }

/-- Witness for C9: selling 200 of a 100-share position at price 12 only
updates the marked price. -/
theorem C9_oversized_sell_dropped_witness :
    assocFind exManager.positions "000001" = some ⟨100, 10, 1000, 10⟩ ∧
    (100 : ℤ) < 200 ∧
    PositionManager.updatePosition exManager "000001" 200 12 false =
      { exManager with positions := [("000001", ⟨100, 10, 1000, 12⟩)] } :=
  ⟨by with_unfolding_all rfl, by decide,
   by
    have h := C9_oversized_sell_dropped exManager "000001" 200 12 ⟨100, 10, 1000, 10⟩
      (by with_unfolding_all rfl) (by decide)
    simpa [exManager, assocSet] using h⟩

/-- C10: `clear_position` on a missing symbol or a non-positive holding
returns 0 and changes nothing; on a positive holding it returns exactly
`quantity * price`, credits cash with that amount (no commission, stamp
duty or slippage), and resets the position's quantity, avg_cost and
total_cost to 0 (its `current_price` becomes the supplied price). -/
theorem C10_clear_position (m : PositionManager) (symbol : String) (price : ℚ) :
    (assocFind m.positions symbol = none →
        PositionManager.clearPosition m symbol price = (0, m)) ∧
    (∀ pos : PMPos, assocFind m.positions symbol = some pos → pos.quantity ≤ 0 →
        PositionManager.clearPosition m symbol price = (0, m)) ∧
    (∀ pos : PMPos, assocFind m.positions symbol = some pos → 0 < pos.quantity →
        PositionManager.clearPosition m symbol price =
          ((pos.quantity : ℚ) * price,
           { m with cash := m.cash + (pos.quantity : ℚ) * price
                  , positions := assocSet m.positions symbol ⟨0, 0, 0, price⟩ })) := by
  refine ⟨?_, ?_, ?_⟩
  · intro h
    unfold PositionManager.clearPosition
    rw [h]
  · intro pos h hq
    unfold PositionManager.clearPosition
    rw [h]
    simp only [if_pos hq]
  · intro pos h hq
    unfold PositionManager.clearPosition
    rw [h]
    simp only [if_neg (not_le.mpr hq)]

/-- Witness for C10 at the concrete manager: clearing the 100-share
position at price 12 returns 1200 and zeroes the entry; clearing a
missing symbol returns 0 and changes nothing. -/
theorem C10_clear_position_witness :
    PositionManager.clearPosition exManager "000001" 12 =
      (1200, { exManager with cash := exManager.cash + 1200
                            , positions := [("000001", ⟨0, 0, 0, 12⟩)] }) ∧
    PositionManager.clearPosition exManager "600519" 12 = (0, exManager) :=
  ⟨by
    have h := (C10_clear_position exManager "000001" 12).2.2 ⟨100, 10, 1000, 10⟩
      (by with_unfolding_all rfl) (by decide)
    norm_num [exManager, assocSet] at h ⊢
    exact h,
   (C10_clear_position exManager "600519" 12).1 (by with_unfolding_all rfl)⟩

/-- Order lifecycle status (`trading/order/order.py`, `OrderStatus`). -/
inductive OrderStatus where
  | PENDING
  | SUBMITTED
  | PARTIAL_FILLED
  | FILLED
  | CANCELLED
  | REJECTED
deriving DecidableEq, Repr

/-- Membership test of `Order.is_active`. -/
def OrderStatus.isActive : OrderStatus → Bool
  | .PENDING => true
  | .SUBMITTED => true
  | .PARTIAL_FILLED => true
  | _ => false

/-- Terminal states of the order lifecycle (specification section 4.5). -/
def OrderStatus.isTerminal : OrderStatus → Bool
  | .FILLED => true
  | .CANCELLED => true
  | .REJECTED => true
  | _ => false

/-- Order type (`trading/order/order.py`, `OrderType`). -/
inductive OrderType where
  | MARKET
  | LIMIT
  | STOP
  | STOP_LIMIT
deriving DecidableEq, Repr

/-- Order direction (`trading/order/order.py`, `OrderDirection`). -/
inductive OrderDirection where
  | BUY
  | SELL
deriving DecidableEq, Repr

/-- Order record (`trading/order/order.py`, `Order`).  Wall-clock
timestamps, `strategy_id` and the metadata map do not affect any
transition and are omitted. -/
structure Order where
  order_id : String
  symbol : String
  direction : OrderDirection
  quantity : ℤ
  order_type : OrderType
  price : Option ℚ
  stop_price : Option ℚ
  status : OrderStatus
  filled_quantity : ℤ
  filled_price : ℚ
  commission : ℚ
  message : String
deriving DecidableEq, Repr

/-- Model of `Order.update_fill`: accumulate the fill, recompute the
volume-weighted `filled_price` (guarded by the source's ternary), and
move to FILLED or PARTIAL_FILLED.  Note the source has no status guard
of its own. -/
def Order.updateFill (o : Order) (fq : ℤ) (fp comm : ℚ) : Order :=
  let newFilled : ℤ := o.filled_quantity + fq
  let newPrice : ℚ :=
    if 0 < newFilled then
      (o.filled_price * ((newFilled : ℚ) - (fq : ℚ)) + fp * (fq : ℚ)) / (newFilled : ℚ)
    else 0
  let newStatus : OrderStatus :=
    if o.quantity ≤ newFilled then OrderStatus.FILLED
    else if 0 < newFilled then OrderStatus.PARTIAL_FILLED
    else o.status
  { o with filled_quantity := newFilled, filled_price := newPrice
         , commission := o.commission + comm, status := newStatus }

/-- Model of `Order.cancel`: only an active order becomes CANCELLED. -/
def Order.cancel (o : Order) (reason : String) : Order :=
  if o.status.isActive then
    { o with status := OrderStatus.CANCELLED, message := reason }
  else o

/-- Model of `Order.reject`: the source sets REJECTED unconditionally,
with no check of the current status. -/
def Order.reject (o : Order) (reason : String) : Order :=
  { o with status := OrderStatus.REJECTED, message := reason }

/-- State of an `OrderManager` (`trading/order/order_manager.py`):
the order table plus the pending/active/completed id buckets. -/
structure OrderManager where
  orders : List (String × Order)
  pending_orders : List String
  active_orders : List String
  completed_orders : List String
deriving DecidableEq, Repr

/-- Empty manager (`OrderManager.__init__`). -/
def OrderManager.init : OrderManager := ⟨[], [], [], []⟩

/-- Model of `OrderManager.create_order`.  The source generates a fresh
timestamp-based id; here the id is a parameter. -/
def OrderManager.createOrder (m : OrderManager) (oid symbol : String)
    (dir : OrderDirection) (q : ℤ) (ot : OrderType) (price stop_price : Option ℚ) :
    OrderManager :=
  let o : Order := ⟨oid, symbol, dir, q, ot, price, stop_price,
    OrderStatus.PENDING, 0, 0, 0, ""⟩
  { m with orders := assocSet m.orders oid o
         , pending_orders := m.pending_orders ++ [oid] }

/-- Model of `OrderManager.submit_order` (returns the Python bool). -/
def OrderManager.submitOrder (m : OrderManager) (oid : String) :
    Bool × OrderManager :=
  match assocFind m.orders oid with
  | none => (false, m)
  | some o =>
    if o.status = OrderStatus.PENDING then
      (true, { m with orders := assocSet m.orders oid { o with status := OrderStatus.SUBMITTED }
                    , pending_orders := m.pending_orders.erase oid
                    , active_orders := m.active_orders ++ [oid] })
    else (false, m)

/-- Model of `OrderManager.fill_order`. -/
def OrderManager.fillOrder (m : OrderManager) (oid : String) (fq : ℤ)
    (fp comm : ℚ) : Bool × OrderManager :=
  match assocFind m.orders oid with
  | none => (false, m)
  | some o =>
    if o.status.isActive then
      let o2 := o.updateFill fq fp comm
      if o2.status = OrderStatus.FILLED then
        (true, { m with orders := assocSet m.orders oid o2
                      , active_orders := m.active_orders.erase oid
                      , completed_orders := m.completed_orders ++ [oid] })
      else
        (true, { m with orders := assocSet m.orders oid o2 })
    else (false, m)

/-- Model of `OrderManager.cancel_order`. -/
def OrderManager.cancelOrder (m : OrderManager) (oid reason : String) :
    Bool × OrderManager :=
  match assocFind m.orders oid with
  | none => (false, m)
  | some o =>
    if o.status.isActive then
      (true, { m with orders := assocSet m.orders oid (o.cancel reason)
                    , pending_orders := m.pending_orders.erase oid
                    , active_orders := m.active_orders.erase oid
                    , completed_orders := m.completed_orders ++ [oid] })
    else (false, m)

/-- Model of `OrderManager.reject_order`: guarded on PENDING. -/
def OrderManager.rejectOrder (m : OrderManager) (oid reason : String) :
    Bool × OrderManager :=
  match assocFind m.orders oid with
  | none => (false, m)
  | some o =>
    if o.status = OrderStatus.PENDING then
      (true, { m with orders := assocSet m.orders oid (o.reject reason)
                    , pending_orders := m.pending_orders.erase oid
                    , completed_orders := m.completed_orders ++ [oid] })
    else (false, m)

/-- One operation on the manager-driven (interactive) order path. -/
inductive MgrOp where
  | create (oid symbol : String) (dir : OrderDirection) (q : ℤ) (ot : OrderType)
      (price stop_price : Option ℚ)
  | submit (oid : String)
  | fill (oid : String) (fq : ℤ) (fp comm : ℚ)
  | cancel (oid reason : String)
  | reject (oid reason : String)
deriving DecidableEq, Repr

/-- Apply one manager operation (the returned bool is dropped). -/
def applyOp (m : OrderManager) : MgrOp → OrderManager
  | .create oid sym d q t p sp => m.createOrder oid sym d q t p sp
  | .submit oid => (m.submitOrder oid).2
  | .fill oid fq fp comm => (m.fillOrder oid fq fp comm).2
  | .cancel oid r => (m.cancelOrder oid r).2
  | .reject oid r => (m.rejectOrder oid r).2

/-- Fold of a sequence of manager operations. -/
def runOps (m : OrderManager) : List MgrOp → OrderManager
  | [] => m
  | op :: ops => runOps (applyOp m op) ops

/-- An operation only creates orders under ids not already in the table
(the source generates fresh microsecond-timestamp ids). -/
def freshCreate (m : OrderManager) : MgrOp → Prop
  | .create oid _ _ _ _ _ _ => assocFind m.orders oid = none
  | _ => True

theorem isActive_not_isTerminal {st : OrderStatus} (h : st.isActive = true) :
    st.isTerminal = false := by
  cases st <;> simp_all [OrderStatus.isActive, OrderStatus.isTerminal]

theorem updateFill_status (o : Order) (fq : ℤ) (fp comm : ℚ) :
    (o.updateFill fq fp comm).status = OrderStatus.FILLED ∨
    (o.updateFill fq fp comm).status = OrderStatus.PARTIAL_FILLED ∨
    (o.updateFill fq fp comm).status = o.status := by
  unfold Order.updateFill
  by_cases h1 : o.quantity ≤ o.filled_quantity + fq
  · left; simp [h1]
  · by_cases h2 : 0 < o.filled_quantity + fq
    · right; left; simp [h1, h2]
    · right; right; simp [h1, h2]

/-- Conclusion of one manager step for a tracked order: terminal states
are never left, and REJECTED is entered only from PENDING. -/
def StepConcl (o o2 : Order) : Prop :=
  (o.status.isTerminal = true → o2.status = o.status) ∧
  (o2.status = OrderStatus.REJECTED →
    o.status = OrderStatus.PENDING ∨ o.status = OrderStatus.REJECTED)

theorem stepConcl_same {o o2 : Order} (h : o = o2) : StepConcl o o2 :=
  ⟨fun _ => by rw [← h], fun h2 => Or.inr (by rw [h]; exact h2)⟩

theorem stepConcl_of_active {o o2 : Order} (hact : o.status.isActive = true)
    (h2 : o2.status = OrderStatus.REJECTED → o.status = OrderStatus.PENDING) :
    StepConcl o o2 :=
  ⟨fun hterm => absurd hterm (by rw [isActive_not_isTerminal hact]; simp),
   fun hr => Or.inl (h2 hr)⟩

/-- C6 (amended): for any manager state and any single OrderManager
operation (create with the source's fresh id, submit, fill, cancel,
reject) applied to it — hence for every sequence of such operations —
a tracked order's status becomes REJECTED only when it was PENDING, no
operation changes the status of an order in a terminal state (FILLED,
CANCELLED, REJECTED), and cancelling a FILLED order returns false and
leaves the manager, including its id buckets, unchanged. -/
theorem C6_manager_state_machine (m : OrderManager) (op : MgrOp) (oid : String)
    (o o2 : Order) (hfresh : freshCreate m op)
    (hbefore : assocFind m.orders oid = some o)
    (hafter : assocFind (applyOp m op).orders oid = some o2) :
    (o.status.isTerminal = true → o2.status = o.status) ∧
    (o2.status = OrderStatus.REJECTED →
      o.status = OrderStatus.PENDING ∨ o.status = OrderStatus.REJECTED) ∧
    (o.status = OrderStatus.FILLED →
      ∀ r, OrderManager.cancelOrder m oid r = (false, m)) := by
  have c3 : o.status = OrderStatus.FILLED →
      ∀ r, OrderManager.cancelOrder m oid r = (false, m) := by
    intro hF r
    unfold OrderManager.cancelOrder
    rw [hbefore]
    simp [hF, OrderStatus.isActive]
  have c12 : StepConcl o o2 := by
    cases op with
    | create oid2 sym d q t p sp =>
      simp only [applyOp, OrderManager.createOrder] at hafter
      rw [assocFind_assocSet] at hafter
      by_cases h : oid = oid2
      · subst h
        simp only [freshCreate] at hfresh
        rw [hbefore] at hfresh
        cases hfresh
      · rw [if_neg h, hbefore] at hafter
        exact stepConcl_same (Option.some.inj hafter)
    | submit oid2 =>
      simp only [applyOp, OrderManager.submitOrder] at hafter
      split at hafter
      · rw [hbefore] at hafter
        exact stepConcl_same (Option.some.inj hafter)
      · rename_i o3 hfind
        split at hafter
        · rename_i hstat
          simp only at hafter
          rw [assocFind_assocSet] at hafter
          by_cases h : oid = oid2
          · subst h
            rw [hfind] at hbefore
            have ho : o = o3 := (Option.some.inj hbefore).symm
            rw [if_pos rfl] at hafter
            have h2 : o2 = { o3 with status := OrderStatus.SUBMITTED } :=
              (Option.some.inj hafter).symm
            refine stepConcl_of_active ?_ ?_
            · rw [ho, hstat]; rfl
            · intro hr; rw [h2] at hr; cases hr
          · rw [if_neg h, hbefore] at hafter
            exact stepConcl_same (Option.some.inj hafter)
        · simp only at hafter
          rw [hbefore] at hafter
          exact stepConcl_same (Option.some.inj hafter)
    | fill oid2 fq fp comm =>
      simp only [applyOp, OrderManager.fillOrder] at hafter
      split at hafter
      · rw [hbefore] at hafter
        exact stepConcl_same (Option.some.inj hafter)
      · rename_i o3 hfind
        split at hafter
        · rename_i hact
          have key : assocFind (assocSet m.orders oid2 (o3.updateFill fq fp comm)) oid
              = some o2 → StepConcl o o2 := by
            intro hset
            rw [assocFind_assocSet] at hset
            by_cases h : oid = oid2
            · subst h
              rw [hfind] at hbefore
              have ho : o = o3 := (Option.some.inj hbefore).symm
              rw [if_pos rfl] at hset
              have h2 : o2 = o3.updateFill fq fp comm := (Option.some.inj hset).symm
              refine stepConcl_of_active (by rw [ho]; exact hact) ?_
              intro hr
              rcases updateFill_status o3 fq fp comm with hu | hu | hu <;>
                rw [h2, hu] at hr
              · exact absurd hr (by decide)
              · exact absurd hr (by decide)
              · rw [hr] at hact
                exact absurd hact (by decide)
            · rw [if_neg h, hbefore] at hset
              exact stepConcl_same (Option.some.inj hset)
          split at hafter
          · exact key hafter
          · exact key hafter
        · simp only at hafter
          rw [hbefore] at hafter
          exact stepConcl_same (Option.some.inj hafter)
    | cancel oid2 r =>
      simp only [applyOp, OrderManager.cancelOrder] at hafter
      split at hafter
      · rw [hbefore] at hafter
        exact stepConcl_same (Option.some.inj hafter)
      · rename_i o3 hfind
        split at hafter
        · rename_i hact
          simp only at hafter
          rw [assocFind_assocSet] at hafter
          by_cases h : oid = oid2
          · subst h
            rw [hfind] at hbefore
            have ho : o = o3 := (Option.some.inj hbefore).symm
            rw [if_pos rfl] at hafter
            have h2 : o2 = o3.cancel r := (Option.some.inj hafter).symm
            refine stepConcl_of_active (by rw [ho]; exact hact) ?_
            intro hr
            rw [h2, Order.cancel, if_pos hact] at hr
            cases hr
          · rw [if_neg h, hbefore] at hafter
            exact stepConcl_same (Option.some.inj hafter)
        · simp only at hafter
          rw [hbefore] at hafter
          exact stepConcl_same (Option.some.inj hafter)
    | reject oid2 r =>
      simp only [applyOp, OrderManager.rejectOrder] at hafter
      split at hafter
      · rw [hbefore] at hafter
        exact stepConcl_same (Option.some.inj hafter)
      · rename_i o3 hfind
        split at hafter
        · rename_i hstat
          simp only at hafter
          rw [assocFind_assocSet] at hafter
          by_cases h : oid = oid2
          · subst h
            rw [hfind] at hbefore
            have ho : o = o3 := (Option.some.inj hbefore).symm
            refine ⟨?_, ?_⟩
            · intro hterm
              rw [ho, hstat] at hterm
              cases hterm
            · intro _
              exact Or.inl (by rw [ho]; exact hstat)
          · rw [if_neg h, hbefore] at hafter
            exact stepConcl_same (Option.some.inj hafter)
        · simp only at hafter
          rw [hbefore] at hafter
          exact stepConcl_same (Option.some.inj hafter)
  exact ⟨c12.1, c12.2, c3⟩

/-- Trade dict appended by the simulated broker (`broker_interface.py`);
buys carry no `profit` key. -/
structure BrokerTrade where
  order_id : String
  symbol : String
  direction : Direction
  price : ℚ
  quantity : ℤ
  amount : ℚ
  commission : ℚ
  profit : Option ℚ
deriving DecidableEq, Repr

/-- State of a `SimulatedBroker`.  The fee rates are fixed in
`__init__` (0.0003 / 0.001 / 0.001) but kept as fields. -/
structure SimBroker where
  connected : Bool
  initial_capital : ℚ
  cash : ℚ
  positions : List (String × BPos)
  trades : List BrokerTrade
  commission_rate : ℚ
  stamp_duty_rate : ℚ
  slippage : ℚ
deriving DecidableEq, Repr

/-- Model of `SimulatedBroker._execute_buy`.  It fills `order.quantity`
directly (no affordability or lot rounding); on insufficient funds it
calls `order.reject` regardless of the order's current status.  `none`
models a raised exception: a missing limit price (`TypeError` comparing
`None`) or the `avg_cost` division with a zero total quantity. -/
def SimBroker.executeBuy (b : SimBroker) (o : Order) (current_price : ℚ) :
    Option (SimBroker × Order × Bool) :=
  let ep : Option (Option ℚ) :=
    match o.order_type with
    | OrderType.MARKET => some (some (current_price * (1 + b.slippage)))
    | OrderType.LIMIT =>
      match o.price with
      | none => none
      | some p => if p < current_price then some none else some (some p)
    | _ => some none
  match ep with
  | none => none
  | some none => some (b, o, false)
  | some (some execution_price) =>
    let quantity : ℤ := o.quantity
    let amount : ℚ := (quantity : ℚ) * execution_price
    let commission : ℚ := max (amount * b.commission_rate) 5
    let total_cost : ℚ := amount + commission
    if b.cash < total_cost then some (b, o.reject "资金不足", false)
    else
      let pos : BPos := (assocFind b.positions o.symbol).getD ⟨0, 0, 0⟩
      let newTotal : ℚ := pos.total_cost + amount
      let newQty : ℤ := pos.quantity + quantity
      if newQty = 0 then none
      else
        some ({ b with cash := b.cash - total_cost
                     , positions := assocSet b.positions o.symbol
                         ⟨newQty, newTotal / (newQty : ℚ), newTotal⟩
                     , trades := b.trades ++
                         [⟨o.order_id, o.symbol, Direction.BUY, execution_price,
                           quantity, amount, commission, none⟩] }
             , o.updateFill quantity execution_price commission, true)

/-- Shared tail of `SimulatedBroker._execute_sell` once the execution
price is fixed: fees, cash credit, position reduction, fill, trade. -/
def SimBroker.sellAt (b : SimBroker) (o : Order) (pos : BPos)
    (execution_price : ℚ) : SimBroker × Order × Bool :=
  let quantity : ℤ := o.quantity
  let amount : ℚ := (quantity : ℚ) * execution_price
  let commission : ℚ := max (amount * b.commission_rate) 5
  let stamp_duty : ℚ := amount * b.stamp_duty_rate
  let total_revenue : ℚ := amount - commission - stamp_duty
  let profit : ℚ := amount - (quantity : ℚ) * pos.avg_cost
  let newQty : ℤ := pos.quantity - quantity
  let newPos : BPos :=
    if newQty ≤ 0 then ⟨0, 0, 0⟩
    else ⟨newQty, pos.avg_cost, (newQty : ℚ) * pos.avg_cost⟩
  ({ b with cash := b.cash + total_revenue
          , positions := assocSet b.positions o.symbol newPos
          , trades := b.trades ++
              [⟨o.order_id, o.symbol, Direction.SELL, execution_price, quantity,
                amount, commission + stamp_duty, some profit⟩] }
   , o.updateFill quantity execution_price (commission + stamp_duty), true)

/-- Model of `SimulatedBroker._execute_sell`: the holding check (with
`order.reject` on insufficient position) comes first, then the
order-type dispatch; a limit sell above the market returns False
without rejecting. -/
def SimBroker.executeSell (b : SimBroker) (o : Order) (current_price : ℚ) :
    Option (SimBroker × Order × Bool) :=
  match assocFind b.positions o.symbol with
  | none => some (b, o.reject "持仓不足", false)
  | some pos =>
    if pos.quantity < o.quantity then some (b, o.reject "持仓不足", false)
    else
      match o.order_type with
      | OrderType.MARKET => some (b.sellAt o pos (current_price * (1 - b.slippage)))
      | OrderType.LIMIT =>
        match o.price with
        | none => none
        | some p => if current_price < p then some (b, o, false) else some (b.sellAt o pos p)
      | _ => some (b, o, false)

/-- Model of `SimulatedBroker.execute_order`. -/
def SimBroker.executeOrder (b : SimBroker) (o : Order) (current_price : ℚ) :
    Option (SimBroker × Order × Bool) :=
  if b.connected = false then some (b, o, false)
  else
    match o.direction with
    | OrderDirection.BUY => b.executeBuy o current_price
    | OrderDirection.SELL => b.executeSell o current_price

/-- A connected simulated broker with no cash. -/
def exBrokerNoCash : SimBroker :=
  { connected := true, initial_capital := 0, cash := 0, positions := [], trades := []
  , commission_rate := 3 / 10000, stamp_duty_rate := 1 / 1000, slippage := 1 / 1000 }

/-- A market buy order that has already been submitted. -/
def exSubmittedOrder : Order :=
  { order_id := "o1", symbol := "000001", direction := OrderDirection.BUY
  , quantity := 100, order_type := OrderType.MARKET, price := none, stop_price := none
  , status := OrderStatus.SUBMITTED, filled_quantity := 0, filled_price := 0
  , commission := 0, message := "" }

/-- C6 counterexample: on the broker execute path an order whose status
is SUBMITTED (not PENDING) is rejected for insufficient funds, so
REJECTED is reachable from a non-PENDING state, contradicting the claim
as stated. -/
theorem C6_counterexample_reject_from_submitted :
    exSubmittedOrder.status = OrderStatus.SUBMITTED ∧
    SimBroker.executeOrder exBrokerNoCash exSubmittedOrder 10 =
      some (exBrokerNoCash,
        { exSubmittedOrder with status := OrderStatus.REJECTED, message := "资金不足" },
        false) ∧
    OrderStatus.SUBMITTED ≠ OrderStatus.PENDING :=
  ⟨rfl, by with_unfolding_all rfl, by decide⟩

/-- A filled market order held by the manager below. -/
def exFilledOrder : Order :=
  { order_id := "f1", symbol := "000001", direction := OrderDirection.BUY
  , quantity := 100, order_type := OrderType.MARKET, price := none, stop_price := none
  , status := OrderStatus.FILLED, filled_quantity := 100, filled_price := 10
  , commission := 5, message := "" }

/-- A manager holding one completed (FILLED) order. -/
def exManagerFilled : OrderManager :=
  { orders := [("f1", exFilledOrder)], pending_orders := [], active_orders := []
  , completed_orders := ["f1"] }

/-- Witness for the amended C6: cancelling the FILLED order fails and
returns the manager unchanged. -/
theorem C6_manager_state_machine_witness :
    OrderManager.cancelOrder exManagerFilled "f1" "user cancel" =
      (false, exManagerFilled) := by
  have h := C6_manager_state_machine exManagerFilled (MgrOp.cancel "f1" "user cancel")
    "f1" exFilledOrder exFilledOrder (by simp [freshCreate])
    (by with_unfolding_all rfl) (by with_unfolding_all rfl)
  exact h.2.2 rfl "user cancel"

theorem sellAt_spec (b : SimBroker) (o : Order) (pos : BPos) (ep : ℚ) :
    (SimBroker.sellAt b o pos ep).1.trades.length = b.trades.length + 1 ∧
    ∀ t : BrokerTrade, (SimBroker.sellAt b o pos ep).1.trades.getLast? = some t →
      t.profit = some (t.amount - (t.quantity : ℚ) * pos.avg_cost) ∧
      (SimBroker.sellAt b o pos ep).1.cash =
        b.cash + t.amount - max (t.amount * b.commission_rate) 5
          - t.amount * b.stamp_duty_rate := by
  unfold SimBroker.sellAt
  refine ⟨by simp, ?_⟩
  intro t ht
  simp only [List.getLast?_concat, Option.some.injEq] at ht
  subst ht
  refine ⟨rfl, ?_⟩
  simp only
  ring

/-- C4: on both execution paths, an executed sell records
`profit = amount - quantity * avg_cost` (fees excluded from the profit
field), while the cash credited is `amount - commission - stamp_duty`
(fees deducted from cash).  The first conjunct is the backtest engine
(`_execute_sell`), the second the simulated broker (`_execute_sell`). -/
theorem C4_sell_profit_convention :
    (∀ (P : BParams) (s : EngineState) (sig : Signal) (price : ℚ) (pos : BPos),
      findPos s.positions sig.symbol = some pos →
      0 < pos.quantity →
      0 < sellQuantity pos sig →
      (executeSell P s sig price).trades.length = s.trades.length + 1 ∧
      ∀ t : BTrade, (executeSell P s sig price).trades.getLast? = some t →
        t.profit = some (t.amount - (t.quantity : ℚ) * pos.avg_cost) ∧
        (executeSell P s sig price).cash =
          s.cash + t.amount - max (t.amount * P.commission_rate) 5
            - t.amount * P.stamp_duty_rate) ∧
    (∀ (b b2 : SimBroker) (o o2 : Order) (cp : ℚ) (pos : BPos),
      assocFind b.positions o.symbol = some pos →
      SimBroker.executeSell b o cp = some (b2, o2, true) →
      b2.trades.length = b.trades.length + 1 ∧
      ∀ t : BrokerTrade, b2.trades.getLast? = some t →
        t.profit = some (t.amount - (t.quantity : ℚ) * pos.avg_cost) ∧
        b2.cash = b.cash + t.amount - max (t.amount * b.commission_rate) 5
          - t.amount * b.stamp_duty_rate) := by
  constructor
  · intro P s sig price pos hpos h1 h2
    simp only [executeSell, hpos, if_neg (not_le.mpr h1), if_neg (not_le.mpr h2)]
    refine ⟨by simp, ?_⟩
    intro t ht
    simp only [List.getLast?_concat, Option.some.injEq] at ht
    subst ht
    refine ⟨rfl, ?_⟩
    simp only
    ring
  · intro b b2 o o2 cp pos hpos hexec
    unfold SimBroker.executeSell at hexec
    rw [hpos] at hexec
    simp only at hexec
    split at hexec
    · simp only [Option.some.injEq, Prod.mk.injEq] at hexec
      exact absurd hexec.2.2 (by decide)
    · split at hexec
      · simp only [Option.some.injEq] at hexec
        have hb2 : (SimBroker.sellAt b o pos (cp * (1 - b.slippage))).1 = b2 := by
          rw [hexec]
        rw [← hb2]
        exact sellAt_spec b o pos (cp * (1 - b.slippage))
      · split at hexec
        · exact absurd hexec (by simp)
        · split at hexec
          · simp only [Option.some.injEq, Prod.mk.injEq] at hexec
            exact absurd hexec.2.2 (by decide)
          · rename_i pv hpeq hcp
            simp only [Option.some.injEq] at hexec
            have hb2 : (SimBroker.sellAt b o pos pv).1 = b2 := by rw [hexec]
            rw [← hb2]
            exact sellAt_spec b o pos pv
      · simp only [Option.some.injEq, Prod.mk.injEq] at hexec
        exact absurd hexec.2.2 (by decide)

/-- A SELL signal with no requested quantity. -/
def exSellSignal : Signal :=
  { symbol := "000001", signal_type := SignalType.SELL, price := 10
  , timestamp := 0, strength := 1, quantity := none }

/-- Trade produced by selling the 100-share holding of `exStateHeld`
at close 10: effective price 9.99, amount 999, commission 5, stamp duty
0.999, profit 999 - 1000 = -1. -/
def exSellTrade : BTrade :=
  ⟨0, "000001", Direction.SELL, 999 / 100, 100, 999, 5999 / 1000,
    some (-1), 5993001 / 1000⟩

/-- A connected simulated broker holding 100 shares of "000001" at 10. -/
def exBrokerHeld : SimBroker :=
  { connected := true, initial_capital := 10000, cash := 1000
  , positions := [("000001", ⟨100, 10, 1000⟩)], trades := []
  , commission_rate := 3 / 10000, stamp_duty_rate := 1 / 1000, slippage := 1 / 1000 }

/-- A submitted market sell order for those 100 shares. -/
def exSellOrder : Order :=
  { order_id := "s1", symbol := "000001", direction := OrderDirection.SELL
  , quantity := 100, order_type := OrderType.MARKET, price := none, stop_price := none
  , status := OrderStatus.SUBMITTED, filled_quantity := 0, filled_price := 0
  , commission := 0, message := "" }

/-- Broker trade for that sell. -/
def exBrokerSellTrade : BrokerTrade :=
  ⟨"s1", "000001", Direction.SELL, 999 / 100, 100, 999, 5999 / 1000, some (-1)⟩

/-- Broker state after executing the sell. -/
def exBrokerAfter : SimBroker :=
  { connected := true, initial_capital := 10000, cash := 1993001 / 1000
  , positions := [("000001", ⟨0, 0, 0⟩)], trades := [exBrokerSellTrade]
  , commission_rate := 3 / 10000, stamp_duty_rate := 1 / 1000, slippage := 1 / 1000 }

/-- The sell order after its fill. -/
def exOrderAfter : Order :=
  { exSellOrder with
      status := OrderStatus.FILLED, filled_quantity := 100,
      filled_price := 999 / 100, commission := 5999 / 1000 }

/-- Witness for C4 on both paths at the concrete sells above. -/
theorem C4_sell_profit_convention_witness :
    (exSellTrade.profit = some (exSellTrade.amount - (exSellTrade.quantity : ℚ) * 10) ∧
      (executeSell exParams exStateHeld exSellSignal 10).cash =
        exStateHeld.cash + exSellTrade.amount
          - max (exSellTrade.amount * exParams.commission_rate) 5
          - exSellTrade.amount * exParams.stamp_duty_rate) ∧
    (exBrokerSellTrade.profit =
        some (exBrokerSellTrade.amount - (exBrokerSellTrade.quantity : ℚ) * 10) ∧
      exBrokerAfter.cash = exBrokerHeld.cash + exBrokerSellTrade.amount
        - max (exBrokerSellTrade.amount * exBrokerHeld.commission_rate) 5
        - exBrokerSellTrade.amount * exBrokerHeld.stamp_duty_rate) := by
  constructor
  · have h := C4_sell_profit_convention.1 exParams exStateHeld exSellSignal 10
      ⟨100, 10, 1000⟩ (by with_unfolding_all rfl) (by decide) (by decide)
    exact h.2 exSellTrade (by with_unfolding_all rfl)
  · have h := C4_sell_profit_convention.2 exBrokerHeld exBrokerAfter exSellOrder
      exOrderAfter 10 ⟨100, 10, 1000⟩ (by with_unfolding_all rfl)
      (by with_unfolding_all rfl)
    exact h.2 exBrokerSellTrade (by with_unfolding_all rfl)

/-- Cash moved by one recorded trade, seen from the starting cash: a buy
consumes `amount + commission`; a sell returns its net revenue
`amount - commission` (the sell record's commission field already
includes stamp duty). -/
def tradeCashFlow (t : BTrade) : ℚ :=
  match t.direction with
  | Direction.BUY => t.amount + t.commission
  | Direction.SELL => -(t.amount - t.commission)

/-- Sum over buy trades of (amount + fees) minus the sum over sell
trades of the net revenue credited to cash. -/
def tradeFlux (ts : List BTrade) : ℚ := (ts.map tradeCashFlow).sum

theorem tradeFlux_append (ts : List BTrade) (t : BTrade) :
    tradeFlux (ts ++ [t]) = tradeFlux ts + tradeCashFlow t := by
  simp [tradeFlux]

theorem executeBuy_flux {P : BParams} {s s2 : EngineState} {sig : Signal}
    {price : ℚ} (h : executeBuy P s sig price = some s2) :
    s2.cash + tradeFlux s2.trades = s.cash + tradeFlux s.trades := by
  simp only [executeBuy] at h
  split at h
  · simp only [Option.some.injEq] at h; subst h; rfl
  · split at h
    · simp only [Option.some.injEq] at h; subst h; rfl
    · split at h
      · exact absurd h (by simp)
      · simp only [Option.some.injEq] at h
        subst h
        simp only [tradeFlux_append, tradeCashFlow]
        ring

theorem executeSell_flux (P : BParams) (s : EngineState) (sig : Signal)
    (price : ℚ) :
    (executeSell P s sig price).cash + tradeFlux (executeSell P s sig price).trades
      = s.cash + tradeFlux s.trades := by
  unfold executeSell
  cases hp : findPos s.positions sig.symbol with
  | none => rfl
  | some pos =>
    by_cases h1 : pos.quantity ≤ 0
    · simp [h1]
    · by_cases h2 : sellQuantity pos sig ≤ 0
      · simp [h1, h2]
      · simp only [if_neg h1, if_neg h2, tradeFlux_append, tradeCashFlow]
        ring

/-- One run of `_process_signals` for a bar: execute the signals whose
date matches the bar; a `ZeroDivisionError` in a buy aborts the run. -/
def processSignals (P : BParams) (s : EngineState) (signals : List Signal)
    (current_date : ℤ) (current_price : ℚ) : Option EngineState :=
  match signals with
  | [] => some s
  | sig :: rest =>
    let s1 : Option EngineState :=
      if sig.timestamp ≠ current_date then some s
      else
        match sig.signal_type with
        | SignalType.BUY => executeBuy P s sig current_price
        | SignalType.SELL => some (executeSell P s sig current_price)
        | _ => some s
    match s1 with
    | none => none
    | some s2 => processSignals P s2 rest current_date current_price

theorem processSignals_flux (P : BParams) (signals : List Signal)
    (current_date : ℤ) (current_price : ℚ) :
    ∀ s s2 : EngineState,
      processSignals P s signals current_date current_price = some s2 →
      s2.cash + tradeFlux s2.trades = s.cash + tradeFlux s.trades := by
  induction signals with
  | nil =>
    intro s s2 h
    simp only [processSignals, Option.some.injEq] at h
    subst h; rfl
  | cons sig rest ih =>
    intro s s2 h
    simp only [processSignals] at h
    by_cases hd : sig.timestamp ≠ current_date
    · rw [if_pos hd] at h
      exact ih s s2 h
    · rw [if_neg hd] at h
      cases hty : sig.signal_type with
      | BUY =>
        rw [hty] at h
        cases hb : executeBuy P s sig current_price with
        | none => rw [hb] at h; exact absurd h (by simp)
        | some s1 =>
          rw [hb] at h
          rw [ih s1 s2 h]
          exact executeBuy_flux hb
      | SELL =>
        rw [hty] at h
        rw [ih (executeSell P s sig current_price) s2 h]
        exact executeSell_flux P s sig current_price
      | HOLD => rw [hty] at h; exact ih s s2 h
      | CLOSE_LONG => rw [hty] at h; exact ih s s2 h
      | CLOSE_SHORT => rw [hty] at h; exact ih s s2 h

/-- Model of `_update_daily_value`: one snapshot at the bar's close,
marking every held position at that same close. -/
def updateDailyValue (s : EngineState) (date : ℤ) (current_price : ℚ) :
    EngineState :=
  let position_value : ℚ :=
    (s.positions.map (fun p => (p.2.quantity : ℚ) * current_price)).sum
  { s with daily_values := s.daily_values ++
      [⟨date, s.cash + position_value, s.cash, position_value⟩] }

/-- One price bar as the engine consumes it (only date and close are
read by `run_backtest`). -/
structure Bar where
  date : ℤ
  close : ℚ
deriving DecidableEq, Repr

/-- The bar loop of `run_backtest`: process matching signals against the
close, then snapshot the daily value. -/
def runBars (P : BParams) (signals : List Signal) :
    EngineState → List Bar → Option EngineState
  | s, [] => some s
  | s, b :: bs =>
    match processSignals P s signals b.date b.close with
    | none => none
    | some s2 => runBars P signals (updateDailyValue s2 b.date b.close) bs

theorem runBars_flux (P : BParams) (signals : List Signal) :
    ∀ (bars : List Bar) (s s2 : EngineState),
      runBars P signals s bars = some s2 →
      s2.cash + tradeFlux s2.trades = s.cash + tradeFlux s.trades := by
  intro bars
  induction bars with
  | nil =>
    intro s s2 h
    simp only [runBars, Option.some.injEq] at h
    subst h; rfl
  | cons b bs ih =>
    intro s s2 h
    simp only [runBars] at h
    cases hp : processSignals P s signals b.date b.close with
    | none => rw [hp] at h; exact absurd h (by simp)
    | some s1 =>
      rw [hp] at h
      have h2 := ih (updateDailyValue s1 b.date b.close) s2 h
      have h3 : (updateDailyValue s1 b.date b.close).cash
            + tradeFlux (updateDailyValue s1 b.date b.close).trades
          = s1.cash + tradeFlux s1.trades := rfl
      rw [h2, h3]
      exact processSignals_flux P signals b.date b.close s s1 hp

/-- Outcome dict of `run_backtest` (`{'error': ...}` or the result). -/
inductive RunResult where
  | errDict (msg : String)
  | ok (initial_capital final_value : ℚ)
deriving DecidableEq, Repr

/-- Model of `BacktestEngine.run_backtest`: reset, return the error dict
on an empty bar series, otherwise overwrite signal symbols when one is
given, run the bar loop and build the result.  `none` models an
uncaught exception aborting the run. -/
def runBacktest (P : BParams) (signals : List Signal) (bars : List Bar)
    (symbol : Option String) : Option (EngineState × RunResult) :=
  let s0 := initState P
  if bars.isEmpty then some (s0, RunResult.errDict "数据为空")
  else
    let sigs : List Signal :=
      match symbol with
      | some sym => signals.map (fun g => { g with symbol := sym })
      | none => signals
    match runBars P sigs s0 bars with
    | none => none
    | some s =>
      if s.daily_values.isEmpty then some (s, RunResult.errDict "没有交易记录")
      else
        some (s, RunResult.ok P.initial_capital
          (((s.daily_values.getLast?).map DailyValue.total_value).getD 0))

/-- C5 (amended): for any completed backtest run,
`cash_end - cash_start + (buy amounts+fees) - (sell revenues) = 0`
— the specification states the identity with `cash_start - cash_end`,
which has the wrong sign. -/
theorem C5_cash_conservation (P : BParams) (signals : List Signal)
    (bars : List Bar) (symbol : Option String) (s : EngineState) (r : RunResult)
    (h : runBacktest P signals bars symbol = some (s, r)) :
    s.cash - P.initial_capital + tradeFlux s.trades = 0 := by
  simp only [runBacktest] at h
  split at h
  · simp only [Option.some.injEq, Prod.mk.injEq] at h
    rw [← h.1]
    simp [initState, tradeFlux]
  · split at h
    · exact absurd h (by simp)
    · rename_i s1 hbars
      have hflux := runBars_flux P _ bars (initState P) s1 hbars
      have hinit : (initState P).cash + tradeFlux (initState P).trades
          = P.initial_capital := by simp [initState, tradeFlux]
      rw [hinit] at hflux
      split at h <;>
        simp only [Option.some.injEq, Prod.mk.injEq] at h <;>
        rw [← h.1] <;> linarith

/-- The conservation expression exactly as the specification writes it:
`cash_start - cash_end + (buy amounts+fees) - (sell revenues)`. -/
def specConservationExpr (P : BParams) (s : EngineState) : ℚ :=
  P.initial_capital - s.cash + tradeFlux s.trades

/-- C5 counterexample: on a one-bar run that buys 900 shares (amount
9009, commission 5), the expression as the specification states it
evaluates to 18028, not 0: the cash difference term has the wrong sign. -/
theorem C5_counterexample_sign :
    (runBacktest exParams [exBuySignal] [⟨0, 10⟩] none).map
        (fun sr => specConservationExpr exParams sr.1) = some 18028 ∧
    (18028 : ℚ) ≠ 0 :=
  ⟨by with_unfolding_all rfl, by norm_num⟩

/-- Witness for C5 at the same one-bar run: the amended identity holds. -/
theorem C5_cash_conservation_witness :
    runBacktest exParams [exBuySignal] [⟨0, 10⟩] none =
      some ({ cash := 986
            , positions := [("000001", ⟨900, 1001 / 100, 9009⟩)]
            , trades := [⟨0, "000001", Direction.BUY, 1001 / 100, 900, 9009, 5, none, 986⟩]
            , daily_values := [⟨0, 9986, 986, 9000⟩] }
           , RunResult.ok 10000 9986) ∧
    (986 : ℚ) - exParams.initial_capital
      + tradeFlux [⟨0, "000001", Direction.BUY, 1001 / 100, 900, 9009, 5, none, 986⟩] = 0 := by
  constructor
  · with_unfolding_all rfl
  · have h := C5_cash_conservation exParams [exBuySignal] [⟨0, 10⟩] none
      { cash := 986
      , positions := [("000001", ⟨900, 1001 / 100, 9009⟩)]
      , trades := [⟨0, "000001", Direction.BUY, 1001 / 100, 900, 9009, 5, none, 986⟩]
      , daily_values := [⟨0, 9986, 986, 9000⟩] }
      (RunResult.ok 10000 9986) (by with_unfolding_all rfl)
    exact h

/-- C8 (amended): running the backtest on an empty bar series returns
the error dict `{'error': '数据为空'}` as an ordinary return value (the
repository defines no `EmptyDataError` and nothing is raised), and the
engine state is exactly the reset state. -/
theorem C8_empty_returns_error_dict (P : BParams) (signals : List Signal)
    (symbol : Option String) :
    runBacktest P signals [] symbol =
      some (initState P, RunResult.errDict "数据为空") := rfl

/-- C8 counterexample: at the concrete empty input the run returns
normally with the error dict and the reset state; no exception (and in
particular no `EmptyDataError`, which the code base does not define) is
raised. -/
theorem C8_counterexample_returns_not_raises :
    runBacktest exParams [] [] none =
      some (initState exParams, RunResult.errDict "数据为空") := rfl

/-- Daily returns (`pct_change`) of the value series with the leading
NaN dropped: pandas `.std()` skips NaNs and `NaN < 0` is false, so the
leading NaN never contributes to the statistics modelled here.  Account
values are assumed nonzero (pandas would give ±inf on a zero base). -/
def dailyReturns : List ℚ → List ℚ
  | [] => []
  | [_] => []
  | a :: b :: rest => (b / a - 1) :: dailyReturns (b :: rest)

/-- Sample variance with ddof=1, the square of `pandas .std()`; `none`
models the NaN that pandas returns for fewer than two values. -/
def sampleVar (xs : List ℚ) : Option ℚ :=
  if xs.length < 2 then none
  else
    let n : ℚ := (xs.length : ℚ)
    let mean : ℚ := xs.sum / n
    some ((xs.map (fun x => (x - mean) ^ 2)).sum / (n - 1))

/-- Square of `volatility = std(daily_return) * sqrt(252)`.  The real
value `x * sqrt 252` with `x ≥ 0` is zero exactly when its square is,
and NaN (`none`) compares unequal to 0, so the source's `== 0` test is
exact on this representation. -/
def volatilitySq (vals : List ℚ) : Option ℚ :=
  (sampleVar (dailyReturns vals)).map (fun v => v * 252)

/-- The float `== 0` comparison on a possibly-NaN nonnegative value
represented by its square. -/
def floatIsZero (x : Option ℚ) : Bool := x == some 0

/-- Value domain of the ratio metrics: an exact rational; a symbolic
power, square root, difference or quotient (returned but never compared
to anything by the analyzer); `float('inf')`; or NaN. -/
inductive RVal where
  | rat (x : ℚ)
  | powv (base expo : ℚ)
  | sqrtv (x : ℚ)
  | subv (a b : RVal)
  | divv (a b : RVal)
  | inf
  | nan
deriving DecidableEq, Repr

/-- Square root of a squared-represented value (NaN propagates). -/
def sqrtRV : Option ℚ → RVal
  | none => RVal.nan
  | some v => RVal.sqrtv v

/-- Model of `_calculate_annualized_return` on a frame prepared by
`analyze` (cumulative-return column present):
`(1 + total_return) ** (1/years) - 1` with `years = n/252`. -/
def annualizedReturn (C : ℚ) (vals : List ℚ) : RVal :=
  if vals.length < 2 then RVal.rat 0
  else
    let total_return : ℚ := ((vals.getLast?).getD 0) / C - 1
    let years : ℚ := (vals.length : ℚ) / 252
    if years ≤ 0 then RVal.rat 0
    else RVal.subv (RVal.powv (1 + total_return) (1 / years)) (RVal.rat 1)

/-- Model of `_calculate_sharpe_ratio` on a frame prepared by `analyze`
(daily-return column present whenever the frame is nonempty). -/
def sharpeRatio (C rf : ℚ) (vals : List ℚ) : RVal :=
  if vals.isEmpty then RVal.rat 0
  else if floatIsZero (volatilitySq vals) then RVal.rat 0
  else RVal.divv (RVal.subv (annualizedReturn C vals) (RVal.rat rf))
    (sqrtRV (volatilitySq vals))

/-- The strictly negative daily returns
(`df['daily_return'][df['daily_return'] < 0]`). -/
def negativeReturns (vals : List ℚ) : List ℚ :=
  (dailyReturns vals).filter (fun x => decide (x < 0))

/-- Square of `downside_std = std(negative returns) * sqrt(252)`. -/
def downsideStdSq (vals : List ℚ) : Option ℚ :=
  (sampleVar (negativeReturns vals)).map (fun v => v * 252)

/-- Model of `calculate_sortino_ratio` on a prepared frame. -/
def sortinoRatio (C rf : ℚ) (vals : List ℚ) : RVal :=
  if vals.isEmpty then RVal.rat 0
  else if (negativeReturns vals).isEmpty then RVal.inf
  else if floatIsZero (downsideStdSq vals) then RVal.rat 0
  else RVal.divv (RVal.subv (annualizedReturn C vals) (RVal.rat rf))
    (sqrtRV (downsideStdSq vals))

/-- Drawdown series `(value - cummax)/cummax` given the running max. -/
def drawdownList : List ℚ → ℚ → List ℚ
  | [], _ => []
  | v :: rest, m =>
    let m2 := max m v
    ((v - m2) / m2) :: drawdownList rest m2

/-- Model of `_calculate_max_drawdown` (0 on an empty frame). -/
def maxDrawdown (vals : List ℚ) : ℚ :=
  match vals with
  | [] => 0
  | v :: _ => ((drawdownList vals v).min?).getD 0

/-- Model of `calculate_calmar_ratio` on a prepared frame. -/
def calmarRatio (C : ℚ) (vals : List ℚ) : RVal :=
  if vals.isEmpty then RVal.rat 0
  else if |maxDrawdown vals| = 0 then RVal.inf
  else RVal.divv (annualizedReturn C vals) (RVal.rat |maxDrawdown vals|)

/-- C7 (amended): the three ratio calculators are total (never raise)
and return the documented sentinels on a nonempty series — Sharpe 0
when volatility == 0; Sortino +∞ with no negative daily returns and 0
when the downside standard deviation == 0; Calmar +∞ when
max_drawdown == 0 — while on the empty series all three return 0
(not the +∞ the unconditional reading would require). -/
theorem C7_ratio_sentinels (C rf : ℚ) :
    (∀ vals : List ℚ, floatIsZero (volatilitySq vals) = true →
        sharpeRatio C rf vals = RVal.rat 0) ∧
    (∀ vals : List ℚ, vals ≠ [] → negativeReturns vals = [] →
        sortinoRatio C rf vals = RVal.inf) ∧
    (∀ vals : List ℚ, negativeReturns vals ≠ [] →
        floatIsZero (downsideStdSq vals) = true →
        sortinoRatio C rf vals = RVal.rat 0) ∧
    (∀ vals : List ℚ, vals ≠ [] → maxDrawdown vals = 0 →
        calmarRatio C vals = RVal.inf) ∧
    sharpeRatio C rf [] = RVal.rat 0 ∧
    sortinoRatio C rf [] = RVal.rat 0 ∧
    calmarRatio C [] = RVal.rat 0 := by
  refine ⟨?_, ?_, ?_, ?_, rfl, rfl, rfl⟩
  · intro vals hz
    by_cases he : vals = []
    · subst he; rfl
    · simp [sharpeRatio, List.isEmpty_iff, he, hz]
  · intro vals he hneg
    simp [sortinoRatio, List.isEmpty_iff, he, hneg]
  · intro vals hneg hz
    have he : vals ≠ [] := by
      intro h
      subst h
      exact hneg rfl
    simp [sortinoRatio, List.isEmpty_iff, he, hneg, hz]
  · intro vals he hdd
    simp [calmarRatio, List.isEmpty_iff, he, hdd]

/-- C7 counterexample: on the empty series max_drawdown is 0 and there
are no negative daily returns, yet Calmar and Sortino both return 0,
not +∞, so the claim fails as stated on empty input. -/
theorem C7_counterexample_empty :
    maxDrawdown ([] : List ℚ) = 0 ∧
    negativeReturns ([] : List ℚ) = [] ∧
    calmarRatio 10000 ([] : List ℚ) = RVal.rat 0 ∧
    sortinoRatio 10000 (3 / 100) ([] : List ℚ) = RVal.rat 0 ∧
    RVal.rat 0 ≠ RVal.inf :=
  ⟨rfl, rfl, rfl, rfl, by decide⟩

/-- Witness for C7 at concrete series: a constant series (zero
volatility), a rising series (no negative returns, zero drawdown), and
a series with two equal negative returns (zero downside deviation). -/
theorem C7_ratio_sentinels_witness :
    sharpeRatio 10000 (3 / 100) [100, 100, 100] = RVal.rat 0 ∧
    sortinoRatio 10000 (3 / 100) [100, 110] = RVal.inf ∧
    sortinoRatio 10000 (3 / 100) [100, 90, 81] = RVal.rat 0 ∧
    calmarRatio 10000 [100, 110] = RVal.inf := by
  obtain ⟨h1, h2, h3, h4, _⟩ := C7_ratio_sentinels 10000 (3 / 100)
  refine ⟨h1 [100, 100, 100] (by with_unfolding_all rfl),
          h2 [100, 110] (by decide) (by with_unfolding_all rfl),
          h3 [100, 90, 81] (by with_unfolding_all decide) (by with_unfolding_all rfl),
          h4 [100, 110] (by decide) (by with_unfolding_all rfl)⟩
